import Mathlib

/-!
# Verification of the jira-bot fetch-aggregate-export pipeline

Shallow embedding of the pipeline core of the `tgzhafri/jira-bot`
repository: the data model (`src/models.py`), the worklog aggregation
engine (`src/processors/worklog_processor.py`), the work-type classifier
and pagination loop of the API client (`src/jira_client.py`), the
report-generation control flow (`src/report_generator.py`), and the
data-shaping logic of the CSV/spreadsheet exporters
(`src/exporters/team_overview_exporter.py`,
`src/exporters/quarterly_breakdown_exporter.py`,
`src/exporters/weekly_breakdown_exporter.py`).

Python floats holding worklog hours are modelled as exact rationals
(`Rat`); worklog timestamps are modelled as an abstract totally ordered
stamp (`Int`) together with the day-of-month component that
`Worklog.week_number` reads.  Python dictionaries (which the code keys
by objects whose `__eq__` the model reproduces) are modelled as
insertion-ordered association lists, matching dict iteration order.
-/

namespace JiraBot

/-- Source `WorkType` enum from `src/models.py`. -/
inductive WorkType where
  | DEVELOPMENT
  | MAINTENANCE
  | UNCLASSIFIED
deriving DecidableEq, Repr

/-- Truthiness of an optional Python string (`None` and `""` are falsy). -/
def pyOptStrTruthy : Option String → Bool
  | none => false
  | some s => !(s == "")

/-- Source `Author` dataclass from `src/models.py`.  `account_id = none` models a
Python `None`. -/
structure Author where
  email : String
  display_name : String
  account_id : Option String := none
  active : Bool := true
deriving DecidableEq, Repr

/-- Source `Author.__eq__`: compare by `account_id` when both are truthy, else by
`(email, display_name)`. -/
def authorEqB (a b : Author) : Bool :=
  if pyOptStrTruthy a.account_id && pyOptStrTruthy b.account_id then
    a.account_id == b.account_id
  else
    a.email == b.email && a.display_name == b.display_name

/-- The value `Author.__hash__` feeds to Python's `hash`: the
`account_id` string when truthy, otherwise the `(email, display_name)`
pair.  Two authors receive equal Python hashes exactly when their hash
keys collide under Python's string/tuple hash; distinct hash keys hash
to distinct values for a generic (e.g. SipHash-seeded) hash. -/
def authorHashKey (a : Author) : Sum String (String × String) :=
  if pyOptStrTruthy a.account_id then
    Sum.inl (a.account_id.getD "")
  else
    Sum.inr (a.email, a.display_name)

/-- Source `Component` dataclass from `src/models.py`. -/
structure Component where
  name : String
  id : Option String := none
  description : Option String := none
deriving DecidableEq, Repr

/-- Timestamp of a worklog: an abstract totally ordered instant plus the
day-of-month that `Worklog.week_number` reads. -/
structure PyDateTime where
  stamp : Int
  day : Nat
deriving DecidableEq, Repr

/-- Source `Worklog` dataclass from `src/models.py`. -/
structure Worklog where
  id : String
  author : Author
  time_spent_seconds : Nat
  started : PyDateTime
  issue_key : String
  comment : Option String := none
deriving DecidableEq, Repr

/-- Source `Worklog.hours`: `time_spent_seconds / 3600`, exact. -/
def Worklog.hours (wl : Worklog) : Rat :=
  (wl.time_spent_seconds : Rat) / 3600

/-- Source `Worklog.week_number`: `min(((day - 1) // 7) + 1, 5)`. -/
def Worklog.week_number (wl : Worklog) : Nat :=
  min ((wl.started.day - 1) / 7 + 1) 5

/-- Source `Issue` dataclass from `src/models.py` (the fields the aggregation
engine reads; `custom_fields` is consumed only by the classifier, which
is modelled separately on raw fields). -/
structure Issue where
  key : String
  summary : String
  issue_type : String
  components : List Component
  labels : List String
  work_type : WorkType
  worklogs : List Worklog := []
deriving DecidableEq, Repr

/-- Source `ProjectComponent` dataclass from `src/models.py`. -/
structure ProjectComponent where
  project : String
  component : Component
deriving DecidableEq, Repr

/-- Source `ProjectComponent.__eq__`: by project and component *name* only. -/
def pcEqB (a b : ProjectComponent) : Bool :=
  a.project == b.project && a.component.name == b.component.name

/-- Source `TimeEntry` dataclass from `src/models.py`.  `week_hours` is the
`week_number -> hours` dict, as an insertion-ordered association list. -/
structure TimeEntry where
  project_component : ProjectComponent
  author : Author
  hours : Rat
  work_type : WorkType
  issues : List String := []
  week_hours : List (Nat × Rat) := []
deriving DecidableEq, Repr

/-- Source `week_hours[week] = week_hours.get(week, 0) + hours` on the
association-list model of the dict. -/
def bumpWeek (m : List (Nat × Rat)) (week : Nat) (hours : Rat) : List (Nat × Rat) :=
  match m with
  | [] => [(week, hours)]
  | (w, h) :: rest =>
      if w == week then (w, h + hours) :: rest
      else (w, h) :: bumpWeek rest week hours

/-- Source `TimeEntry.add_hours`: increments `hours`, appends `issue_key` if new
and truthy, bumps `week_hours[week]` when a week is given. -/
def TimeEntry.add_hours (e : TimeEntry) (hours : Rat)
    (issue_key : Option String := none) (week : Option Nat := none) : TimeEntry :=
  { e with
    hours := e.hours + hours
    issues :=
      match issue_key with
      | some k => if e.issues.contains k then e.issues else e.issues ++ [k]
      | none => e.issues
    week_hours :=
      match week with
      | some w => bumpWeek e.week_hours w hours
      | none => e.week_hours }

/-! ## Aggregation engine (`src/processors/worklog_processor.py`) -/

/-- Equality test of the dict key `(project_component, author, work_type)`
used by `process_issues` and `aggregate_entries`, i.e. Python tuple
equality over the three custom `__eq__`s. -/
def entryKeyMatch (e : TimeEntry) (pc : ProjectComponent) (a : Author)
    (wt : WorkType) : Bool :=
  pcEqB e.project_component pc && authorEqB e.author a && decide (e.work_type = wt)

/-- One `aggregated[key]` update of `process_issues`: find the entry with
a matching key and `add_hours(worklog.hours, issue.key)` on it (no week
is passed), or insert a fresh `TimeEntry` at the end. -/
def upsertProcess (acc : List TimeEntry) (pc : ProjectComponent) (a : Author)
    (wt : WorkType) (hours : Rat) (issue_key : String) : List TimeEntry :=
  match acc with
  | [] => [{ project_component := pc, author := a, hours := hours,
             work_type := wt, issues := [issue_key] }]
  | e :: rest =>
      if entryKeyMatch e pc a wt then
        e.add_hours hours (some issue_key) none :: rest
      else
        e :: upsertProcess rest pc a wt hours issue_key

/-- Source `WorklogProcessor.process_issues`: single pass over
issues × components × worklogs, filtering by optional author and by the
`[start_date, end_date]` window, aggregating into the dict keyed by
`(project_component, author, work_type)`; returns the dict's values in
insertion order. -/
def process_issues (issues : List Issue) (project_key : String)
    (start_date end_date : Int) (filter_author : Option Author := none) :
    List TimeEntry :=
  issues.foldl (fun acc issue =>
    issue.components.foldl (fun acc comp =>
      let project_component : ProjectComponent :=
        { project := project_key, component := comp }
      issue.worklogs.foldl (fun acc worklog =>
        if (match filter_author with
            | some fa => !authorEqB worklog.author fa
            | none => false) then acc
        else if !(decide (start_date ≤ worklog.started.stamp ∧
                          worklog.started.stamp ≤ end_date)) then acc
        else upsertProcess acc project_component worklog.author
               issue.work_type worklog.hours issue.key) acc) acc) []

/-- The sequential `for issue in entry.issues: if issue not in ...: append`
deduplicating union of issue-key lists in `aggregate_entries`. -/
def addUniqueIssues (xs ys : List String) : List String :=
  ys.foldl (fun acc i => if acc.contains i then acc else acc ++ [i]) xs

/-- One dict update of `aggregate_entries`: on a key hit, sum hours and
union issue keys; otherwise store the entry at the end. -/
def upsertMerge (acc : List TimeEntry) (e : TimeEntry) : List TimeEntry :=
  match acc with
  | [] => [e]
  | a :: rest =>
      if entryKeyMatch a e.project_component e.author e.work_type then
        { a with hours := a.hours + e.hours,
                 issues := addUniqueIssues a.issues e.issues } :: rest
      else
        a :: upsertMerge rest e

/-- Source `WorklogProcessor.aggregate_entries`: fold the entry list into the
dict keyed by `(project_component, author, work_type)`; the result is the
dict's values in insertion order. -/
def aggregate_entries (entries : List TimeEntry) : List TimeEntry :=
  entries.foldl upsertMerge []

/-! ## Pagination loop of `JiraClient.get_issues_with_worklog`
(`src/jira_client.py`).

The server is modelled by its full result list `records`; a page request
at offset `startAt` returns the batch `(records.drop startAt).take
pageSize` together with the reported `total = records.length`.  The
`while True` loop is given explicit fuel; `records.length + 1` steps
always suffice when `pageSize > 0` (each non-final iteration advances
`startAt` by a full page). -/

/-- The paging loop body: request a batch at `startAt`, append it, stop
when `startAt + len(batch) >= total`, else advance `startAt` by
`len(batch)`.  Returns the concatenated records and the number of page
requests issued. -/
def fetchLoop (records : List α) (pageSize : Nat) : Nat → Nat → List α × Nat
  | 0, _ => ([], 0)
  | fuel + 1, startAt =>
      let batch := (records.drop startAt).take pageSize
      if records.length ≤ startAt + batch.length then
        (batch, 1)
      else
        let rest := fetchLoop records pageSize fuel (startAt + batch.length)
        (batch ++ rest.1, rest.2 + 1)

/-- Source `JiraClient.get_issues_with_worklog`, abstracted over the query: run
the paging loop from `startAt = 0`.  In the source `pageSize` is the
`maxResults` parameter (1000). -/
def get_issues_with_worklog (records : List α) (pageSize : Nat) : List α × Nat :=
  fetchLoop records pageSize (records.length + 1) 0

/-! ## Work-type classifier (`JiraClient._categorize_work_type`) -/

/-- A raw custom-field value as found in the JSON payload: an object
(dict), a string, or some other JSON value rendered through `str(...)`.
Non-dict non-string JSON values are truthy whenever their `str(...)`
rendering could matter to the classifier (the falsy ones render as
`"0"`, `"[]"`, `"None"`, `"False"`, ..., none of which contain a
category keyword). -/
inductive FieldValue where
  | vdict (entries : List (String × String))
  | vstr (s : String)
  | vother (s : String)
deriving DecidableEq, Repr

/-- Source `JiraClient._extract_field_value`: dicts yield `.get('value', '')`,
strings yield themselves, anything else its `str(...)` rendering. -/
def extract_field_value : FieldValue → String
  | .vdict entries => (entries.lookup "value").getD ""
  | .vstr s => s
  | .vother s => s

/-- Python truthiness of a field value (`if field_value:`). -/
def fieldTruthy : FieldValue → Bool
  | .vdict entries => !entries.isEmpty
  | .vstr s => !(s == "")
  | .vother _ => true

/-- Source `needle.isPrefixOf hay` on character lists, written out. -/
def startsWithChars : List Char → List Char → Bool
  | [], _ => true
  | _ :: _, [] => false
  | a :: as, b :: bs => a == b && startsWithChars as bs

/-- Substring containment on character lists. -/
def containsChars (needle : List Char) : List Char → Bool
  | [] => needle.isEmpty
  | c :: rest => startsWithChars needle (c :: rest) || containsChars needle rest

/-- Python's `needle in hay` on strings. -/
def pyIn (needle hay : String) : Bool :=
  containsChars needle.data hay.data

/-- Python's `str.lower()` (ASCII-faithful). -/
def pyLower (s : String) : String :=
  ⟨s.data.map Char.toLower⟩

/-- The raw `fields` consumed by `_categorize_work_type`: the three
category custom fields (`None` when absent), the issue type name
(`fields.get('issuetype', {}).get('name', '')` for the fallback), and
the labels. -/
structure RawFields where
  customfield_10082 : Option FieldValue := none
  customfield_10048 : Option FieldValue := none
  customfield_10081 : Option FieldValue := none
  issuetype_name : String := ""
  labels : List String := []
deriving Repr

/-- One custom-field check of `_categorize_work_type`: if the field is
present and truthy, look for `"maintenance"` then `"development"` in its
lower-cased extracted value; `none` means fall through to the next rule. -/
def checkCategoryField : Option FieldValue → Option WorkType
  | none => none
  | some fv =>
      if fieldTruthy fv then
        let category_value := pyLower (extract_field_value fv)
        if pyIn "maintenance" category_value then some .MAINTENANCE
        else if pyIn "development" category_value then some .DEVELOPMENT
        else none
      else none

def maintenance_types : List String := ["bug", "hotfix", "support", "incident", "defect"]

def maintenance_labels : List String := ["maintenance", "bugfix", "hotfix", "support", "patch"]

/-- Source `JiraClient._categorize_work_type`: the designated category field
`customfield_10082` first, then the legacy fields `customfield_10048`
and `customfield_10081` in order, then the issue-type/label fallback
(`mt in issue_type` is substring containment, `ml in labels` is list
membership), else Development. -/
def categorize_work_type (fields : RawFields) : WorkType :=
  match checkCategoryField fields.customfield_10082 with
  | some wt => wt
  | none =>
    match checkCategoryField fields.customfield_10048 with
    | some wt => wt
    | none =>
      match checkCategoryField fields.customfield_10081 with
      | some wt => wt
      | none =>
        let issue_type := pyLower fields.issuetype_name
        let labels := fields.labels.map pyLower
        if maintenance_types.any (fun mt => pyIn mt issue_type)
            || maintenance_labels.any (fun ml => labels.contains ml) then
          .MAINTENANCE
        else
          .DEVELOPMENT

/-! ## Component parsing in `JiraClient.parse_issue` -/

/-- A raw component object from the JSON payload. -/
structure RawComponent where
  name : String
  id : Option String := none
deriving DecidableEq, Repr

/-- The component-extraction step of `JiraClient.parse_issue`: map the
raw components, and substitute the single synthetic `"Unassigned"`
component when the list is empty. -/
def parseComponents (raw : List RawComponent) : List Component :=
  let components := raw.map (fun c => { name := c.name, id := c.id : Component })
  if components.isEmpty then [{ name := "Unassigned" }] else components

/-! ## Report-generation control flow (`generate_report` in
`src/report_generator.py`), yearly path.

`generate_report` returns `None` when `test_connection()` fails (the
client swallows `JiraAuthenticationError`/`JiraAPIError` and returns
`False`), when no project keys are available, and when the parallel
fetch produced no entries; otherwise it returns the exporter's output
path. -/
def generate_report_yearly (connection_ok : Bool) (project_keys : List String)
    (all_entries : List TimeEntry) (output_file : String) : Option String :=
  if !connection_ok then none
  else if project_keys.isEmpty then none
  else if all_entries.isEmpty then none
  else some output_file

/-! ## Report structures (`src/models.py`) -/

/-- Source `MonthlyReport` dataclass. -/
structure MonthlyReport where
  year : Int
  month : Nat
  project_keys : List String
  entries : List TimeEntry
deriving Repr

/-- Source `YearlyReport` dataclass (the fields the exporters read). -/
structure YearlyReport where
  year : Int
  project_keys : List String
  monthly_reports : List MonthlyReport
deriving Repr

/-! ## Numeric cell rendering

Python renders data cells with `f"{hours:.1f}"` in the CSV exporters and
writes `round(hours, 1)` into spreadsheet cells.  On the exact rationals
of this model both are round-half-to-even at one decimal, which agrees
with the float computation on every value appearing in the claims. -/

/-- Round half to even (Python's `round` on exact values). -/
def roundHalfEven (q : Rat) : Int :=
  if q - ⌊q⌋ < 1 / 2 then ⌊q⌋
  else if 1 / 2 < q - ⌊q⌋ then ⌊q⌋ + 1
  else if ⌊q⌋ % 2 = 0 then ⌊q⌋ else ⌊q⌋ + 1

/-- Source `f"{q:.1f}"` for the nonnegative hour values the pipeline produces. -/
def fmt1 (q : Rat) : String :=
  let n := roundHalfEven (10 * q)
  toString (n / 10) ++ "." ++ toString (n % 10)

/-- A CSV data/total cell: `f"{hours:.1f}" if hours > 0 else ""`. -/
def fmtCellCsv (hours : Rat) : String :=
  if 0 < hours then fmt1 hours else ""

/-- Python's `round(q, 1)`. -/
def pyRound1 (q : Rat) : Rat :=
  (roundHalfEven (10 * q) : Rat) / 10

/-- A spreadsheet cell of `QuarterlyBreakdownExporter._write_data_section`
(and of the other XLSX writers): `if hours > 0: ws[...] = round(hours, 1)`;
a non-positive value leaves the cell unwritten (`none`). -/
def quarterly_xlsx_cell (hours : Rat) : Option Rat :=
  if 0 < hours then some (pyRound1 hours) else none

/-- What an `openpyxl` cell shows: an unwritten cell is blank (the empty
string); a written cell shows its one-decimal value. -/
def xlsxCellDisplay : Option Rat → String
  | none => ""
  | some v => fmt1 v

/-- Python's `str.title()` (ASCII-faithful): upper-case a letter that
follows a non-letter, lower-case the other letters. -/
def pyTitleAux : Bool → List Char → List Char
  | _, [] => []
  | prevCased, c :: cs =>
      if c.isAlpha then
        (if prevCased then c.toLower else c.toUpper) :: pyTitleAux true cs
      else
        c :: pyTitleAux false cs

/-- Python's `str.title()`. -/
def pyTitle (s : String) : String :=
  ⟨pyTitleAux false s.data⟩

/-! ## Team overview CSV exporter
(`TeamOverviewExporter.export_yearly`, the data-shaping: the produced
CSV as a list of rows of strings). -/

/-- Stable insertion into a list sorted by `le` (placed before the first
element `y` with `le x y`), matching Python's stable `sorted`. -/
def insertSortedBy (le : α → α → Bool) (x : α) : List α → List α
  | [] => [x]
  | y :: ys => if le x y then x :: y :: ys else y :: insertSortedBy le x ys

/-- Stable insertion sort by `le`, matching Python's `sorted`. -/
def sortBy (le : α → α → Bool) : List α → List α
  | [] => []
  | x :: xs => insertSortedBy le x (sortBy le xs)

/-- Lexicographic `<=` on character lists by code point: Python's string
comparison. -/
def charListLe : List Char → List Char → Bool
  | [], _ => true
  | _ :: _, [] => false
  | a :: as, b :: bs =>
      decide (a.toNat < b.toNat)
        || (decide (a.toNat = b.toNat) && charListLe as bs)

/-- Python's `a <= b` on strings. -/
def strLeB (a b : String) : Bool :=
  charListLe a.data b.data

/-- Strict `a < b` on strings (Python's `<`). -/
def strLtB (a b : String) : Bool :=
  strLeB a b && !(a == b)

/-- Source `sorted(..., key=lambda a: a.display_name)`. -/
def authorLeB (a b : Author) : Bool :=
  strLeB a.display_name b.display_name

/-- Source `sorted(..., key=lambda pc: (pc.project, pc.component.name))`. -/
def pcKeyLeB (a b : ProjectComponent) : Bool :=
  strLtB a.project b.project
    || (a.project == b.project && strLeB a.component.name b.component.name)

/-- The per-component author-hours dict `{Author: hours}`. -/
abbrev AuthorHours := List (Author × Rat)

/-- The per-section dict `{ProjectComponent: {Author: hours}}`. -/
abbrev SectionData := List (ProjectComponent × AuthorHours)

/-- Source `data[pc][author] += hours` on the nested defaultdict model. -/
def addAuthorHours (m : AuthorHours) (a : Author) (hours : Rat) : AuthorHours :=
  match m with
  | [] => [(a, hours)]
  | (x, h) :: rest =>
      if authorEqB x a then (x, h + hours) :: rest
      else (x, h) :: addAuthorHours rest a hours

/-- Outer defaultdict update for `data_by_type[work_type][pc][author] += hours`. -/
def addSectionHours (m : SectionData) (pc : ProjectComponent) (a : Author)
    (hours : Rat) : SectionData :=
  match m with
  | [] => [(pc, [(a, hours)])]
  | (x, am) :: rest =>
      if pcEqB x pc then (x, addAuthorHours am a hours) :: rest
      else (x, am) :: addSectionHours rest pc a hours

/-- Source `all_authors.add(author)` on the encounter-ordered set model. -/
def addAuthorSet (s : List Author) (a : Author) : List Author :=
  if s.any (fun x => authorEqB x a) then s else s ++ [a]

/-- Source `dev_data[pc].get(author, 0)`. -/
def getAuthorHours (m : AuthorHours) (a : Author) : Rat :=
  match m.find? (fun x => authorEqB x.1 a) with
  | some x => x.2
  | none => 0

/-- Accumulated state of the aggregation pass of
`TeamOverviewExporter.export_yearly`. -/
structure OverviewData where
  dev : SectionData := []
  maint : SectionData := []
  authors : List Author := []

/-- The aggregation pass over `report.monthly_reports` of
`TeamOverviewExporter.export_yearly`: skip inactive authors when
filtering, then accumulate Development/Maintenance hours and the author
set. -/
def collectTeamOverview (report : YearlyReport) (filter_active_only : Bool) :
    OverviewData :=
  report.monthly_reports.foldl (fun acc mr =>
    mr.entries.foldl (fun acc entry =>
      if filter_active_only && !entry.author.active then acc
      else
        match entry.work_type with
        | .DEVELOPMENT =>
            { acc with
              dev := addSectionHours acc.dev entry.project_component entry.author entry.hours
              authors := addAuthorSet acc.authors entry.author }
        | .MAINTENANCE =>
            { acc with
              maint := addSectionHours acc.maint entry.project_component entry.author entry.hours
              authors := addAuthorSet acc.authors entry.author }
        | .UNCLASSIFIED => acc) acc) {}

/-- The data rows of one section: the section's `ProjectComponent` keys
sorted by `(project, component.name)`, one row per key. -/
def sectionRows (data : SectionData) (sorted_authors : List Author) :
    List (List String) :=
  (sortBy (fun x y => pcKeyLeB x.1 y.1) data).map (fun x =>
    [x.1.project, x.1.component.name]
      ++ sorted_authors.map (fun a => fmtCellCsv (getAuthorHours x.2 a)))

/-- The section's TOTAL row: per author the sum over the sorted keys. -/
def sectionTotalRow (data : SectionData) (sorted_authors : List Author) :
    List String :=
  let sorted := sortBy (fun x y => pcKeyLeB x.1 y.1) data
  ["TOTAL", ""]
    ++ sorted_authors.map (fun a =>
        fmtCellCsv ((sorted.map (fun x => getAuthorHours x.2 a)).sum))

/-- Source `TeamOverviewExporter.export_yearly`: the emitted CSV as a list of
rows — the `DEVELOPMENT` marker, the header (authors title-cased, sorted
by display name), data rows, TOTAL row, a blank separator row, then the
`MAINTENANCE` section in the same shape. -/
def team_overview_export_yearly (report : YearlyReport)
    (filter_active_only : Bool) : List (List String) :=
  let d := collectTeamOverview report filter_active_only
  let sorted_authors := sortBy authorLeB d.authors
  let header := ["Project", "Component"]
    ++ sorted_authors.map (fun a => pyTitle a.display_name)
  [["DEVELOPMENT"], header]
    ++ sectionRows d.dev sorted_authors
    ++ [sectionTotalRow d.dev sorted_authors]
    ++ [[]]
    ++ [["MAINTENANCE"], header]
    ++ sectionRows d.maint sorted_authors
    ++ [sectionTotalRow d.maint sorted_authors]

/-! ## Weekly bucketing (`WeeklyBreakdownExporter.export_yearly`,
lines 62-69) -/

/-- How the weekly exporter buckets one `TimeEntry` of month `month`
into `(month, week) -> hours` cells: distribute `week_hours` when it is
non-empty, otherwise fall back to putting all hours in week 1. -/
def weeklyEntryBuckets (month : Nat) (entry : TimeEntry) :
    List ((Nat × Nat) × Rat) :=
  if entry.week_hours.isEmpty then [((month, 1), entry.hours)]
  else entry.week_hours.map (fun wh => ((month, wh.1), wh.2))

/-! ## Derived key helpers -/

/-- The aggregation-key triple carried by a `TimeEntry`. -/
def keyFields (e : TimeEntry) : ProjectComponent × Author × WorkType :=
  (e.project_component, e.author, e.work_type)

/-- Two entries whose aggregation keys do not match (the relation kept
pairwise by the dict model). -/
def KeyApart (x y : TimeEntry) : Prop :=
  entryKeyMatch x y.project_component y.author y.work_type = false

/-! ## Concrete fixtures used by the closed theorems -/

/-- Author fixture for the fan-out scenario
(`tests/test_worklog_distribution.py`). -/
def tAuthor : Author := { email := "t@ex.com", display_name := "Test User" }

/-- Worklog fixture: 36000 seconds (10 hours), inside the window `[0, 100]`. -/
def tWorklog : Worklog :=
  { id := "1001", author := tAuthor, time_spent_seconds := 36000,
    started := { stamp := 50, day := 1 }, issue_key := "TEST-1" }

/-- Issue fixture with the two components `[Backend, Frontend]`. -/
def tIssue : Issue :=
  { key := "TEST-1", summary := "Test Issue", issue_type := "Task",
    components := [{ name := "Backend" }, { name := "Frontend" }],
    labels := [], work_type := .DEVELOPMENT, worklogs := [tWorklog] }

/-- Author fixture for the weekly-bucketing check. -/
def w2Author : Author :=
  { email := "dev@ex.com", display_name := "Dev", account_id := some "acc-dev" }

/-- Worklog fixture dated on day 8 of its month (week 2 by
`Worklog.week_number`), 36000 seconds. -/
def w2Worklog : Worklog :=
  { id := "7", author := w2Author, time_spent_seconds := 36000,
    started := { stamp := 50, day := 8 }, issue_key := "TEST-9" }

/-- Issue fixture carrying `w2Worklog`. -/
def w2Issue : Issue :=
  { key := "TEST-9", summary := "S", issue_type := "Task",
    components := [{ name := "Backend" }], labels := [],
    work_type := .DEVELOPMENT, worklogs := [w2Worklog] }

/-- The entry `process_issues` produces for `w2Issue` (note the empty
`week_hours`). -/
def w2Entry : TimeEntry :=
  { project_component := { project := "TEST", component := { name := "Backend" } },
    author := w2Author, hours := 10, work_type := .DEVELOPMENT,
    issues := ["TEST-9"] }

/-- Author with a truthy `account_id`. -/
def authorWithId : Author :=
  { email := "e@x.com", display_name := "Dev One", account_id := some "ACC123" }

/-- The same person's author record as it appears in a payload that
omits `accountId`. -/
def authorNoId : Author :=
  { email := "e@x.com", display_name := "Dev One", account_id := none }

/-- Fields fixture: category custom field `"Maintenance"` on a `Story`
issue. -/
def storyFields : RawFields :=
  { customfield_10082 := some (.vstr "Maintenance"),
    issuetype_name := "Story", labels := ["feature"] }

/-- Entry fixture for the report-outcome check. -/
def c5Entry : TimeEntry :=
  { project_component := { project := "TEST", component := { name := "Backend" } },
    author := { email := "dev@ex.com", display_name := "Dev" },
    hours := 10, work_type := .DEVELOPMENT, issues := ["TEST-1"] }

/-- Worklog fixture for an issue with no components: 18000 seconds
(5 hours) inside the window `[0, 100]`. -/
def uWorklog : Worklog :=
  { id := "21", author := tAuthor, time_spent_seconds := 18000,
    started := { stamp := 40, day := 15 }, issue_key := "PROJ-9" }

/-- Author fixture "Jane Smith" for the yearly-overview scenario. -/
def jane : Author :=
  { email := "jane@example.com", display_name := "Jane Smith",
    account_id := some "acc-jane" }

/-- Author fixture "John Doe" for the yearly-overview scenario. -/
def john : Author :=
  { email := "john@example.com", display_name := "John Doe",
    account_id := some "acc-john" }

/-- ProjectComponent fixture `TEST - Backend`. -/
def backendPC : ProjectComponent :=
  { project := "TEST", component := { name := "Backend" } }

/-- ProjectComponent fixture `TEST - Frontend`. -/
def frontendPC : ProjectComponent :=
  { project := "TEST", component := { name := "Frontend" } }

/-- Entry fixtures: Jane logs 13.5 h on each of the two components
(27 h total), John logs 9 h on each (18 h total), all Development. -/
def scenarioEntries : List TimeEntry :=
  [ { project_component := backendPC,
      author := john, hours := 9, work_type := .DEVELOPMENT, issues := ["TEST-2"] },
    { project_component := backendPC,
      author := jane, hours := 27/2, work_type := .DEVELOPMENT, issues := ["TEST-1"] },
    { project_component := frontendPC,
      author := john, hours := 9, work_type := .DEVELOPMENT, issues := ["TEST-3"] },
    { project_component := frontendPC,
      author := jane, hours := 27/2, work_type := .DEVELOPMENT, issues := ["TEST-4"] } ]

/-- Report fixture wrapping `scenarioEntries` in a single (collapsed)
monthly report, as the yearly-overview path does. -/
def scenarioReport : YearlyReport :=
  { year := 2025, project_keys := ["TEST"],
    monthly_reports := [ { year := 2025, month := 1, project_keys := ["TEST"],
                           entries := scenarioEntries } ] }

/-! # Theorems

Helper lemmas first, then one theorem per claim (with witnesses and
counterexamples where required). -/

/-! ## Pagination -/

/-- With a positive page size and enough fuel, the paging loop from
offset `s` returns the remaining records and issues
`max 1 ⌈(total - s) / P⌉` requests. -/
lemma fetchLoop_eq {α : Type} (records : List α) (P : Nat) (hP : 0 < P) :
    ∀ fuel s, records.length - s < fuel →
      fetchLoop records P fuel s =
        (records.drop s, max 1 ((records.length - s + P - 1) / P)) := by
  intro fuel
  induction fuel with
  | zero => intro s h; omega
  | succ fuel ih =>
      intro s h
      rw [fetchLoop]
      have hbl : ((records.drop s).take P).length = min P (records.length - s) := by
        simp [List.length_take, List.length_drop]
      by_cases hstop : records.length ≤ s + ((records.drop s).take P).length
      · rw [if_pos hstop]
        rw [hbl] at hstop
        have hple : records.length - s ≤ P := by omega
        have hbatch : (records.drop s).take P = records.drop s := by
          apply List.take_of_length_le
          simp only [List.length_drop]
          omega
        have hcnt : (records.length - s + P - 1) / P ≤ 1 := by
          have h2 : records.length - s + P - 1 < 2 * P := by omega
          have := Nat.div_lt_of_lt_mul (m := records.length - s + P - 1)
            (n := P) (k := 2)
          omega
        rw [hbatch]
        simp only [Prod.mk.injEq]
        refine ⟨trivial, ?_⟩
        rw [max_eq_left hcnt]
      · rw [if_neg hstop]
        rw [hbl] at hstop
        have hblP : min P (records.length - s) = P := by omega
        have hrem : P < records.length - s := by omega
        rw [hbl, hblP]
        rw [ih (s + P) (by omega)]
        have hlist : (records.drop s).take P ++ records.drop (s + P)
            = records.drop s := by
          have hdd : records.drop (s + P) = (records.drop s).drop P := by
            rw [List.drop_drop]
          rw [hdd, List.take_append_drop]
        have hcnt1 : records.length - (s + P) + P - 1 = records.length - s - 1 := by
          omega
        have hdivge : 1 ≤ (records.length - s - 1) / P := by
          refine (Nat.le_div_iff_mul_le hP).mpr ?_
          omega
        have hsum : (records.length - s + P - 1) / P
            = (records.length - s - 1) / P + 1 := by
          have hh : records.length - s + P - 1 = (records.length - s - 1) + P := by
            omega
          rw [hh, Nat.add_div_right _ hP]
        simp only [hcnt1, hlist, Prod.mk.injEq]
        refine ⟨trivial, ?_⟩
        rw [max_eq_right hdivge, hsum]
        rw [max_eq_right (by omega : (1:ℕ) ≤ (records.length - s - 1) / P + 1)]

/-- C4 (amended): for every positive page size `P`, the client returns
all server records concatenated in page order and issues exactly
`max 1 ⌈T / P⌉` page requests, where `T` is the server total — the first
request is issued even when `T = 0`, because the client only learns the
total from it. -/
theorem get_issues_with_worklog_pages_all {α : Type} (records : List α)
    (P : Nat) (hP : 0 < P) :
    get_issues_with_worklog records P
      = (records, max 1 ((records.length + P - 1) / P)) := by
  rw [get_issues_with_worklog, fetchLoop_eq records P hP _ 0 (by omega)]
  simp

/-- C4 witness: a server total of 250 with pages of 100 yields exactly 3
page requests and all 250 records in order. -/
theorem get_issues_with_worklog_pages_all_witness :
    get_issues_with_worklog (List.range 250) 100 = (List.range 250, 3) := by
  rw [get_issues_with_worklog_pages_all (List.range 250) 100 (by norm_num)]
  simp only [List.length_range]
  norm_num

/-- C4 counterexample: with a server total of 0, the code issues one
page request while `⌈T / P⌉ = 0`, so "exactly `⌈T / P⌉` page requests"
fails as stated. -/
theorem get_issues_zero_total_counterexample :
    (get_issues_with_worklog ([] : List Nat) 100).2 = 1 ∧
    (List.length ([] : List Nat) + 100 - 1) / 100 = 0 := by
  decide

/-! ## Idempotence of `aggregate_entries` -/

/-- Matching against an entry is determined by its `keyFields`. -/
lemma entryKeyMatch_congr {y x : TimeEntry} (h : keyFields y = keyFields x) :
    (∀ z : TimeEntry, entryKeyMatch z y.project_component y.author y.work_type
        = entryKeyMatch z x.project_component x.author x.work_type) := by
  have h1 : y.project_component = x.project_component := congrArg Prod.fst h
  have h2 : y.author = x.author := congrArg (fun p => p.2.1) h
  have h3 : y.work_type = x.work_type := congrArg (fun p => p.2.2) h
  intro z
  rw [h1, h2, h3]

/-- Every member of `upsertMerge acc e` carries the key of a member of
`acc` or the key of `e`. -/
lemma mem_upsertMerge {acc : List TimeEntry} {e y : TimeEntry}
    (hy : y ∈ upsertMerge acc e) :
    (∃ x ∈ acc, keyFields y = keyFields x) ∨ keyFields y = keyFields e := by
  induction acc with
  | nil =>
      simp only [upsertMerge, List.mem_singleton] at hy
      exact Or.inr (by rw [hy])
  | cons a rest ih =>
      rw [upsertMerge] at hy
      by_cases hm : entryKeyMatch a e.project_component e.author e.work_type = true
      · rw [if_pos hm] at hy
        rcases List.mem_cons.mp hy with h | h
        · exact Or.inl ⟨a, List.mem_cons_self a rest, by rw [h]; rfl⟩
        · exact Or.inl ⟨y, List.mem_cons_of_mem a h, rfl⟩
      · rw [if_neg hm] at hy
        rcases List.mem_cons.mp hy with h | h
        · exact Or.inl ⟨a, List.mem_cons_self a rest, by rw [h]⟩
        · rcases ih h with ⟨x, hx, hk⟩ | hk
          · exact Or.inl ⟨x, List.mem_cons_of_mem a hx, hk⟩
          · exact Or.inr hk

/-- The dict model keeps its stored keys pairwise distinct. -/
lemma pairwise_upsertMerge {acc : List TimeEntry} {e : TimeEntry}
    (h : acc.Pairwise KeyApart) : (upsertMerge acc e).Pairwise KeyApart := by
  induction acc with
  | nil => simp [upsertMerge, KeyApart]
  | cons a rest ih =>
      rw [upsertMerge]
      rcases List.pairwise_cons.mp h with ⟨ha, hrest⟩
      by_cases hm : entryKeyMatch a e.project_component e.author e.work_type = true
      · rw [if_pos hm]
        refine List.pairwise_cons.mpr ⟨?_, hrest⟩
        intro x hx
        exact ha x hx
      · rw [if_neg hm]
        refine List.pairwise_cons.mpr ⟨?_, ih hrest⟩
        intro y hy
        rcases mem_upsertMerge hy with ⟨x, hx, hk⟩ | hk
        · have hc := entryKeyMatch_congr hk a
          unfold KeyApart
          rw [hc]
          exact ha x hx
        · have hc := entryKeyMatch_congr hk a
          unfold KeyApart
          rw [hc]
          exact Bool.eq_false_iff.mpr hm

/-- Folding `upsertMerge` preserves pairwise key distinctness. -/
lemma pairwise_foldl_upsertMerge (es : List TimeEntry) :
    ∀ acc : List TimeEntry, acc.Pairwise KeyApart →
      (es.foldl upsertMerge acc).Pairwise KeyApart := by
  induction es with
  | nil => intro acc h; exact h
  | cons e es ih =>
      intro acc h
      exact ih (upsertMerge acc e) (pairwise_upsertMerge h)

/-- The output of `aggregate_entries` has pairwise distinct keys. -/
lemma pairwise_aggregate_entries (es : List TimeEntry) :
    (aggregate_entries es).Pairwise KeyApart :=
  pairwise_foldl_upsertMerge es [] List.Pairwise.nil

/-- When no stored entry matches, `upsertMerge` appends. -/
lemma upsertMerge_no_match {acc : List TimeEntry} {e : TimeEntry}
    (h : ∀ a ∈ acc, KeyApart a e) : upsertMerge acc e = acc ++ [e] := by
  induction acc with
  | nil => rfl
  | cons a rest ih =>
      have ha := h a (List.mem_cons_self a rest)
      rw [upsertMerge, if_neg (by rw [ha]; simp)]
      rw [ih (fun x hx => h x (List.mem_cons_of_mem a hx))]
      rfl

/-- Folding a list with pairwise distinct keys into a compatible
accumulator just appends it. -/
lemma foldl_upsertMerge_no_match (es : List TimeEntry) :
    ∀ acc : List TimeEntry, (∀ a ∈ acc, ∀ e ∈ es, KeyApart a e) →
      es.Pairwise KeyApart → es.foldl upsertMerge acc = acc ++ es := by
  induction es with
  | nil => intro acc _ _; simp
  | cons e es ih =>
      intro acc hcross hpw
      rcases List.pairwise_cons.mp hpw with ⟨he, hes⟩
      have h1 : upsertMerge acc e = acc ++ [e] :=
        upsertMerge_no_match (fun a ha => hcross a ha e (List.mem_cons_self e es))
      rw [List.foldl_cons, h1]
      rw [ih (acc ++ [e]) ?_ hes]
      · simp
      · intro a ha x hx
        rcases List.mem_append.mp ha with h | h
        · exact hcross a h x (List.mem_cons_of_mem e hx)
        · rw [List.mem_singleton.mp h]
          exact he x hx

/-- C7: `aggregate_entries` is idempotent — re-aggregating its own
output changes nothing: hours are not double-counted and no issue key is
duplicated, because the output's keys are already pairwise distinct. -/
theorem aggregate_entries_idem (es : List TimeEntry) :
    aggregate_entries (aggregate_entries es) = aggregate_entries es := by
  have hpw := pairwise_aggregate_entries es
  have h := foldl_upsertMerge_no_match (aggregate_entries es) []
    (by simp) hpw
  simpa [aggregate_entries] using h

/-! ## Component fan-out in `process_issues` -/

/-- When no stored entry matches, `upsertProcess` appends a fresh entry. -/
lemma upsertProcess_no_match {acc : List TimeEntry} {pc : ProjectComponent}
    {a : Author} {wt : WorkType} {h : Rat} {k : String}
    (hn : ∀ en ∈ acc, entryKeyMatch en pc a wt = false) :
    upsertProcess acc pc a wt h k
      = acc ++ [{ project_component := pc, author := a, hours := h,
                  work_type := wt, issues := [k] }] := by
  induction acc with
  | nil => rfl
  | cons x rest ih =>
      rw [upsertProcess, if_neg (by rw [hn x (List.mem_cons_self x rest)]; simp)]
      rw [ih (fun y hy => hn y (List.mem_cons_of_mem x hy))]
      rfl

/-- Folding one worklog's upsert over components with pairwise distinct
names appends one fresh entry per component. -/
lemma fanout_fold (pk : String) (a : Author) (wt : WorkType) (hours : Rat)
    (k : String) :
    ∀ (comps : List Component) (acc : List TimeEntry),
      (∀ en ∈ acc, ∀ c ∈ comps,
        (en.project_component.component.name == c.name) = false) →
      (comps.map Component.name).Nodup →
      comps.foldl (fun acc c =>
          upsertProcess acc { project := pk, component := c } a wt hours k) acc
        = acc ++ comps.map (fun c =>
            { project_component := { project := pk, component := c },
              author := a, hours := hours, work_type := wt,
              issues := [k] }) := by
  intro comps
  induction comps with
  | nil => intro acc _ _; simp
  | cons c rest ih =>
      intro acc hn hnd
      rw [List.foldl_cons]
      rw [upsertProcess_no_match (fun en hen => by
        have := hn en hen c (List.mem_cons_self c rest)
        simp [entryKeyMatch, pcEqB, this])]
      rw [ih _ ?_ ((List.nodup_cons.mp (by simpa using hnd)).2)]
      · simp
      · intro en hen c' hc'
        rcases List.mem_append.mp hen with hmem | hmem
        · exact hn en hmem c' (List.mem_cons_of_mem c hc')
        · have hname : c.name ∉ rest.map Component.name :=
            (List.nodup_cons.mp (by simpa using hnd)).1
          rw [List.mem_singleton.mp hmem]
          have hne : c.name ≠ c'.name := by
            intro hcontra
            exact hname (hcontra ▸ List.mem_map_of_mem Component.name hc')
          exact beq_eq_false_iff_ne.mpr hne

/-- C1: for an issue with several (distinctly-named) components and one
in-window worklog, `process_issues` attributes the worklog's full hours
to every `(project, component)` key — one `TimeEntry` per component,
each carrying all of `wl.hours` (fan-out, not split). -/
theorem process_issues_multi_component_fanout (pk key summary itype : String)
    (labels : List String) (wt : WorkType) (comps : List Component)
    (wl : Worklog) (s e : Int)
    (h1 : s ≤ wl.started.stamp) (h2 : wl.started.stamp ≤ e)
    (hnd : (comps.map Component.name).Nodup) :
    process_issues [{ key := key, summary := summary, issue_type := itype,
                      components := comps, labels := labels, work_type := wt,
                      worklogs := [wl] }] pk s e none
      = comps.map (fun c =>
          { project_component := { project := pk, component := c },
            author := wl.author, hours := wl.hours, work_type := wt,
            issues := [key] }) := by
  have hdec : decide (s ≤ wl.started.stamp ∧ wl.started.stamp ≤ e) = true :=
    decide_eq_true ⟨h1, h2⟩
  simp only [process_issues, List.foldl_cons, List.foldl_nil, hdec,
             Bool.not_true, if_false]
  exact fanout_fold pk wl.author wt wl.hours key comps [] (by simp) hnd

/-- C1 witness: project "TEST", issue "TEST-1" with components
`[Backend, Frontend]`, one worklog of 36000 seconds inside the window —
exactly two `TimeEntry` records of 10.0 hours each, aggregate 20.0. -/
theorem process_issues_multi_component_fanout_witness :
    process_issues [tIssue] "TEST" 0 100 none
      = [ { project_component := { project := "TEST",
                                   component := { name := "Backend" } },
            author := tAuthor, hours := 10, work_type := .DEVELOPMENT,
            issues := ["TEST-1"] },
          { project_component := { project := "TEST",
                                   component := { name := "Frontend" } },
            author := tAuthor, hours := 10, work_type := .DEVELOPMENT,
            issues := ["TEST-1"] } ]
    ∧ ((process_issues [tIssue] "TEST" 0 100 none).map TimeEntry.hours).sum
        = 20 := by
  have h := process_issues_multi_component_fanout "TEST" "TEST-1" "Test Issue"
    "Task" [] .DEVELOPMENT [{ name := "Backend" }, { name := "Frontend" }]
    tWorklog 0 100 (by decide) (by decide) (by decide)
  refine ⟨?_, ?_⟩ <;> (simp only [tIssue]; rw [h]; norm_num [Worklog.hours, tWorklog])

/-! ## Synthetic "Unassigned" component -/

/-- C8: an issue whose raw payload has zero components is parsed with the
single synthetic `"Unassigned"` component, and its in-window worklog
still produces a `TimeEntry` (it is not silently dropped by
aggregation). -/
theorem process_issues_unassigned_component (pk key summary itype : String)
    (labels : List String) (wt : WorkType) (wl : Worklog) (s e : Int)
    (h1 : s ≤ wl.started.stamp) (h2 : wl.started.stamp ≤ e) :
    parseComponents [] = [{ name := "Unassigned" }] ∧
    process_issues [{ key := key, summary := summary, issue_type := itype,
                      components := parseComponents [], labels := labels,
                      work_type := wt, worklogs := [wl] }] pk s e none
      = [{ project_component := { project := pk,
                                  component := { name := "Unassigned" } },
           author := wl.author, hours := wl.hours, work_type := wt,
           issues := [key] }] := by
  refine ⟨rfl, ?_⟩
  have hpc : parseComponents [] = [{ name := "Unassigned" }] := rfl
  rw [hpc]
  have hdec : decide (s ≤ wl.started.stamp ∧ wl.started.stamp ≤ e) = true :=
    decide_eq_true ⟨h1, h2⟩
  simp only [process_issues, List.foldl_cons, List.foldl_nil, hdec,
             Bool.not_true, if_false]
  have h := fanout_fold pk wl.author wt wl.hours key
    [{ name := "Unassigned" }] [] (by simp) (by simp)
  simpa using h

/-- C8 witness: a component-less issue with a 18000-second worklog at
stamp 40 in window `[0, 100]` yields one `Unassigned` entry of 5 hours. -/
theorem process_issues_unassigned_component_witness :
    process_issues [{ key := "PROJ-9", summary := "s", issue_type := "Task",
                      components := parseComponents [], labels := [],
                      work_type := .MAINTENANCE,
                      worklogs := [uWorklog] }] "PROJ" 0 100 none
      = [{ project_component := { project := "PROJ",
                                  component := { name := "Unassigned" } },
           author := tAuthor, hours := 5, work_type := .MAINTENANCE,
           issues := ["PROJ-9"] }] := by
  have h := process_issues_unassigned_component "PROJ" "PROJ-9" "s" "Task"
    [] .MAINTENANCE uWorklog 0 100 (by decide) (by decide)
  rw [h.2]
  norm_num [Worklog.hours, uWorklog]

/-! ## Weekly bucketing -/

/-- C2: `process_issues` never passes the worklog's computed week to
`add_hours`, so the produced entry has an empty `week_hours`; the weekly
exporter's fallback then books all hours under week 1 even though the
worklog (day 8) computes to week 2, contradicting the documented weekly
placement. -/
theorem weekly_hours_misbucketed_into_week_one :
    process_issues [w2Issue] "TEST" 0 100 none = [w2Entry]
    ∧ w2Worklog.week_number = 2
    ∧ w2Entry.week_hours = []
    ∧ weeklyEntryBuckets 1 w2Entry = [((1, 1), 10)]
    ∧ (weeklyEntryBuckets 1 w2Entry).lookup (1, 2) = none := by
  refine ⟨?_, by decide, rfl, rfl, rfl⟩
  simp [process_issues, upsertProcess, entryKeyMatch, pcEqB, authorEqB,
        pyOptStrTruthy, Worklog.hours, TimeEntry.add_hours, w2Issue,
        w2Worklog, w2Author, w2Entry]
  norm_num

/-! ## Work-type classification -/

/-- C3: whenever the designated category custom field
(`customfield_10082`) is present and its extracted value contains the
substring "maintenance" case-insensitively, the classifier returns
Maintenance, regardless of the issue type and the labels. -/
theorem categorize_category_field_maintenance_wins (fields : RawFields)
    (fv : FieldValue) (hf : fields.customfield_10082 = some fv)
    (hm : pyIn "maintenance" (pyLower (extract_field_value fv)) = true) :
    categorize_work_type fields = .MAINTENANCE := by
  have htr : fieldTruthy fv = true := by
    cases fv with
    | vdict entries =>
        cases entries with
        | nil =>
            have hfalse : pyIn "maintenance"
                (pyLower (extract_field_value (FieldValue.vdict []))) = false := by
              decide
            rw [hfalse] at hm
            cases hm
        | cons p ps => rfl
    | vstr s =>
        by_cases hs : s = ""
        · subst hs
          have hfalse : pyIn "maintenance"
              (pyLower (extract_field_value (FieldValue.vstr ""))) = false := by
            decide
          rw [hfalse] at hm
          cases hm
        · simp [fieldTruthy, hs]
    | vother s => rfl
  rw [categorize_work_type, hf]
  simp [checkCategoryField, htr, hm]

/-- C3 witness: category custom field "Maintenance" with issue type
"Story" (a development-sounding type) classifies as Maintenance. -/
theorem categorize_category_field_maintenance_wins_witness :
    storyFields.issuetype_name = "Story"
    ∧ categorize_work_type storyFields = .MAINTENANCE :=
  ⟨rfl, categorize_category_field_maintenance_wins storyFields
    (.vstr "Maintenance") rfl (by decide)⟩

/-! ## Report-generation outcome -/

/-- C5 counterexample: a run that authenticates but finds no data and a
run whose connection test fails return the same value (`none`) from
`generate_report`, so the two outcomes are not distinguishable by the
function's result. -/
theorem generate_report_outcomes_equal_counterexample :
    generate_report_yearly true ["TEST"] [] "reports/out.csv"
      = generate_report_yearly false ["TEST"] [c5Entry] "reports/out.csv" :=
  rfl

/-- C5 (amended): `generate_report` returns `None` both when the
connection test fails and when the run finds no entries; the two cases
are distinguished only in the logs, not in the returned value. -/
theorem generate_report_none_on_failure_and_no_data (project_keys : List String)
    (entries : List TimeEntry) (output_file : String) :
    generate_report_yearly false project_keys entries output_file = none
    ∧ generate_report_yearly true project_keys [] output_file = none := by
  constructor
  · simp [generate_report_yearly]
  · simp [generate_report_yearly]

/-! ## Author equality and hashing -/

/-- C6: two author records for the same person, one with an `account_id`
and one without, compare equal under `Author.__eq__` (the fallback
compares email and display name) yet hash from different keys — the
string `"ACC123"` versus the pair `("e@x.com", "Dev One")` — so their
Python hashes disagree for any collision-free string/tuple hash,
violating "hash must match equality". -/
theorem author_eq_but_hash_keys_differ :
    authorEqB authorWithId authorNoId = true
    ∧ authorEqB authorNoId authorWithId = true
    ∧ authorHashKey authorWithId ≠ authorHashKey authorNoId := by
  refine ⟨by decide, by decide, by decide⟩

/-! ## Yearly-overview CSV export -/

/-- Totality of the code-point string comparison. -/
lemma charListLe_total : ∀ as bs : List Char,
    charListLe as bs = false → charListLe bs as = true := by
  intro as
  induction as with
  | nil => intro bs h; cases bs <;> simp [charListLe] at h
  | cons a as ih =>
      intro bs h
      cases bs with
      | nil => rfl
      | cons b bs' =>
          simp only [charListLe, Bool.or_eq_false_iff, Bool.and_eq_false_iff,
                     decide_eq_false_iff_not] at h
          simp only [charListLe, Bool.or_eq_true, Bool.and_eq_true,
                     decide_eq_true_eq]
          rcases h with ⟨h1, h2⟩
          by_cases he : a.toNat = b.toNat
          · rcases h2 with h2 | h2
            · exact absurd he h2
            · exact Or.inr ⟨he.symm, ih bs' h2⟩
          · exact Or.inl (by omega)

/-- Totality of the author display-name comparison. -/
lemma authorLeB_total (a b : Author) (h : authorLeB a b = false) :
    authorLeB b a = true :=
  charListLe_total _ _ h

/-- Stable insertion keeps the list sorted for a total comparison. -/
lemma chain'_insertSortedBy {α : Type} {le : α → α → Bool}
    (htot : ∀ a b : α, le a b = false → le b a = true) (x : α) :
    ∀ l : List α, List.Chain' (fun a b => le a b = true) l →
      List.Chain' (fun a b => le a b = true) (insertSortedBy le x l) := by
  intro l
  induction l with
  | nil => intro _; simp [insertSortedBy]
  | cons y ys ih =>
      intro h
      rw [insertSortedBy]
      by_cases hxy : le x y = true
      · rw [if_pos hxy]
        exact (List.chain'_cons).mpr ⟨hxy, h⟩
      · rw [if_neg hxy]
        have hyx : le y x = true :=
          htot x y (Bool.not_eq_true _ ▸ Bool.of_not_eq_true hxy)
        have hys : List.Chain' (fun a b => le a b = true) ys := h.tail
        have hins := ih hys
        cases ys with
        | nil => simpa [insertSortedBy] using hyx
        | cons z zs =>
            rw [insertSortedBy]
            rw [insertSortedBy] at hins
            by_cases hxz : le x z = true
            · rw [if_pos hxz] at hins ⊢
              exact (List.chain'_cons).mpr ⟨hyx, hins⟩
            · rw [if_neg hxz] at hins ⊢
              have hyz : le y z = true := ((List.chain'_cons).mp h).1
              exact (List.chain'_cons).mpr ⟨hyz, hins⟩

/-- Insertion sort produces a sorted list for a total comparison. -/
lemma chain'_sortBy {α : Type} {le : α → α → Bool}
    (htot : ∀ a b : α, le a b = false → le b a = true) :
    ∀ l : List α, List.Chain' (fun a b => le a b = true) (sortBy le l) := by
  intro l
  induction l with
  | nil => simp [sortBy]
  | cons x xs ih => exact chain'_insertSortedBy htot x _ ih

/-- C9: the yearly-overview export sorts the author columns ascending by
display name for every report, and on the two-author scenario (Jane
Smith 27.0 h, John Doe 18.0 h across components Backend and Frontend) it
produces exactly the expected CSV: sorted header, one data row per
component, and a TOTAL row reading 27.0 and 18.0. -/
theorem team_overview_sorted_header_and_totals :
    (∀ (report : YearlyReport) (filter_active_only : Bool),
      List.Chain' (fun a b : Author => authorLeB a b = true)
        (sortBy authorLeB (collectTeamOverview report filter_active_only).authors))
    ∧ team_overview_export_yearly scenarioReport true =
      [ ["DEVELOPMENT"],
        ["Project", "Component", "Jane Smith", "John Doe"],
        ["TEST", "Backend", "13.5", "9.0"],
        ["TEST", "Frontend", "13.5", "9.0"],
        ["TOTAL", "", "27.0", "18.0"],
        [],
        ["MAINTENANCE"],
        ["Project", "Component", "Jane Smith", "John Doe"],
        ["TOTAL", "", "", ""] ] := by
  constructor
  · intro report filter_active_only
    exact chain'_sortBy authorLeB_total _
  · have hjj : authorEqB john john = true := by decide
    have hji : authorEqB john jane = false := by decide
    have hij : authorEqB jane john = false := by decide
    have hii : authorEqB jane jane = true := by decide
    have hbb : pcEqB backendPC backendPC = true := by decide
    have hbf : pcEqB backendPC frontendPC = false := by decide
    have hfb : pcEqB frontendPC backendPC = false := by decide
    have hff : pcEqB frontendPC frontendPC = true := by decide
    have hsort : authorLeB john jane = false := by decide
    have hpcle : pcKeyLeB backendPC frontendPC = true := by decide
    have hja : jane.active = true := rfl
    have hjoa : john.active = true := rfl
    have hcollect : collectTeamOverview scenarioReport true =
        { dev := [(backendPC, [(john, 9), (jane, 27/2)]),
                  (frontendPC, [(john, 9), (jane, 27/2)])],
          maint := [],
          authors := [john, jane] } := by
      simp [collectTeamOverview, scenarioReport, scenarioEntries,
            addSectionHours, addAuthorHours, addAuthorSet,
            hjj, hji, hij, hii, hbb, hbf, hfb, hff, hja, hjoa]
    have hsorted : sortBy authorLeB [john, jane] = [jane, john] := by
      simp [sortBy, insertSortedBy, hsort]
    have hf135 : fmtCellCsv (27/2 : Rat) = "13.5" := by
      norm_num [fmtCellCsv, fmt1, roundHalfEven]; decide
    have hf9 : fmtCellCsv (9 : Rat) = "9.0" := by
      norm_num [fmtCellCsv, fmt1, roundHalfEven]; decide
    have hf0 : fmtCellCsv (0 : Rat) = "" := by
      norm_num [fmtCellCsv]
    have htj : pyTitle jane.display_name = "Jane Smith" := by decide
    have htjo : pyTitle john.display_name = "John Doe" := by decide
    have hp1 : backendPC.project = "TEST" := rfl
    have hp2 : frontendPC.project = "TEST" := rfl
    have hn1 : backendPC.component.name = "Backend" := rfl
    have hn2 : frontendPC.component.name = "Frontend" := rfl
    rw [team_overview_export_yearly, hcollect]
    simp only [hsorted]
    simp [sectionRows, sectionTotalRow, sortBy, insertSortedBy, hpcle,
          getAuthorHours, hjj, hji, hij, hii, htj, htjo, hp1, hp2, hn1, hn2,
          hf135, hf9, hf0]
    constructor <;> (norm_num [fmtCellCsv, fmt1, roundHalfEven]; decide)

/-! ## Numeric cell rendering -/

/-- C10 counterexample: a zero-hours spreadsheet cell is left blank
(the cell is never written), not rendered as a dash. -/
theorem quarterly_zero_cell_blank_not_dash_counterexample :
    xlsxCellDisplay (quarterly_xlsx_cell 0) ≠ "-"
    ∧ xlsxCellDisplay (quarterly_xlsx_cell 0) = "" := by
  constructor <;> norm_num [quarterly_xlsx_cell, xlsxCellDisplay]
  decide

/-- C10 (amended): a positive cell renders as the one-decimal string
`fmt1` in CSV and as the one-decimal-rounded value in the spreadsheet; a
zero or absent value renders as the empty string in CSV and leaves the
spreadsheet cell unwritten (blank, not a dash) — never the literal
"0.0". -/
theorem positive_cells_one_decimal_zero_cells_blank (hours : Rat) :
    (hours ≤ 0 →
      fmtCellCsv hours = "" ∧ fmtCellCsv hours ≠ "0.0"
      ∧ quarterly_xlsx_cell hours = none
      ∧ xlsxCellDisplay (quarterly_xlsx_cell hours) = "")
    ∧ (0 < hours →
      fmtCellCsv hours = fmt1 hours
      ∧ quarterly_xlsx_cell hours = some (pyRound1 hours)
      ∧ ∃ n : Int, 0 ≤ n
          ∧ fmt1 hours = toString (n / 10) ++ "." ++ toString (n % 10)) := by
  constructor
  · intro hle
    have hn : ¬ (0 < hours) := not_lt.mpr hle
    have h1 : fmtCellCsv hours = "" := by simp [fmtCellCsv, hn]
    refine ⟨h1, by rw [h1]; decide, by simp [quarterly_xlsx_cell, hn],
            by simp [quarterly_xlsx_cell, hn, xlsxCellDisplay]⟩
  · intro hpos
    refine ⟨by simp [fmtCellCsv, hpos], by simp [quarterly_xlsx_cell, hpos], ?_⟩
    refine ⟨roundHalfEven (10 * hours), ?_, rfl⟩
    have h10 : (0:Rat) < 10 * hours := by positivity
    have hfl : 0 ≤ ⌊(10 : Rat) * hours⌋ := Int.floor_nonneg.mpr (le_of_lt h10)
    rw [roundHalfEven]
    split_ifs <;> omega

/-- C10 witness: at hours = 0 the CSV cell is the empty string and the
spreadsheet cell is blank; at hours = 13.5 both render the one-decimal
value. -/
theorem positive_cells_one_decimal_zero_cells_blank_witness :
    (fmtCellCsv 0 = "" ∧ fmtCellCsv 0 ≠ "0.0"
      ∧ quarterly_xlsx_cell 0 = none
      ∧ xlsxCellDisplay (quarterly_xlsx_cell 0) = "")
    ∧ (fmtCellCsv (27/2) = fmt1 (27/2)
      ∧ quarterly_xlsx_cell (27/2) = some (pyRound1 (27/2))
      ∧ ∃ n : Int, 0 ≤ n
          ∧ fmt1 (27/2) = toString (n / 10) ++ "." ++ toString (n % 10)) :=
  ⟨(positive_cells_one_decimal_zero_cells_blank 0).1 (le_refl 0),
   (positive_cells_one_decimal_zero_cells_blank (27/2)).2 (by norm_num)⟩

end JiraBot
